import Mathlib

/-!
Verification of the distributed-lock service
(`src/workers/services/distributed-lock.service.ts`).

The backing Redis store is modelled as an association list from keys to
entries carrying the stored token and an absolute expiry instant
(milliseconds).  A key is *live* at instant `now` when `now` is strictly
before its expiry; Redis `PX` expiry makes an expired key behave as absent.

Service methods are translated directly from the TypeScript source:
`await` calls on the store that may reject are modelled through `redisCall`,
which yields `Except Unit` values; a `try/catch` in the source becomes a
`match` on that `Except`, and the absence of one leaves the `Except` in the
method's result type.  Clock reads (`Date.now()`), the process id and the
random component of `Math.random()` are explicit parameters, as is the
per-attempt reachability of the store (`errAt`).
-/

namespace DistLock

/-- One stored Redis entry: the lock token and the absolute expiry instant
(set by `PX ttl` to `now + ttl`). -/
structure Entry where
  token : String
  expiresAt : Nat
  deriving Repr, DecidableEq

/-- The Redis keyspace, as an association list from keys to entries. -/
abbrev Store := List (String × Entry)

/-- Look up the raw entry stored at `key` (ignoring expiry). -/
def storeGet : Store → String → Option Entry
  | [], _ => none
  | (k, e) :: rest, key => if k = key then some e else storeGet rest key

/-- Overwrite (or insert) the entry at `key`. -/
def storeSet : Store → String → Entry → Store
  | [], key, e => [(key, e)]
  | (k, e0) :: rest, key, e =>
    if k = key then (key, e) :: rest else (k, e0) :: storeSet rest key e

/-- Delete the entry at `key` (Redis `DEL`). -/
def storeDel : Store → String → Store
  | [], _ => []
  | (k, e) :: rest, key =>
    if k = key then storeDel rest key else (k, e) :: storeDel rest key

/-- The value Redis `GET` returns at instant `now`: the stored token when the
entry exists and has not yet expired, `none` otherwise. -/
def liveGet (st : Store) (now : Nat) (key : String) : Option String :=
  match storeGet st key with
  | some e => if now < e.expiresAt then some e.token else none
  | none => none

/-- Redis `SET key token PX ttl NX` at instant `now`: succeeds exactly when
no live entry exists at `key`, installing the token with expiry `now + ttl`;
otherwise fails leaving the store unchanged. -/
def setNX (st : Store) (now : Nat) (key token : String) (ttl : Nat) :
    Bool × Store :=
  match liveGet st now key with
  | some _ => (false, st)
  | none => (true, storeSet st key ⟨token, now + ttl⟩)

/-- The release Lua script: `if GET key == token then DEL key return 1 else
return 0`, executed atomically at instant `now`. -/
def releaseScript (st : Store) (now : Nat) (key token : String) :
    Nat × Store :=
  match liveGet st now key with
  | some t => if t = token then (1, storeDel st key) else (0, st)
  | none => (0, st)

/-- The extend Lua script: `if GET key == token then PEXPIRE key ttl return 1
else return 0`, executed atomically at instant `now`; `PEXPIRE` moves the
expiry to `now + ttl` and keeps the stored token. -/
def extendScript (st : Store) (now : Nat) (key token : String) (ttl : Nat) :
    Nat × Store :=
  match liveGet st now key with
  | some t =>
    if t = token then (1, storeSet st key ⟨t, now + ttl⟩) else (0, st)
  | none => (0, st)

/-- An awaited store round-trip: when the store is unreachable (`err`) the
promise rejects, otherwise it resolves to `v`. -/
def redisCall (err : Bool) (v : α) : Except Unit α :=
  if err then Except.error () else Except.ok v

/-- `LockOptions` from the source: every field optional. -/
structure LockOptions where
  ttl : Option Nat := none
  retryCount : Option Nat := none
  retryDelay : Option Nat := none
  deriving Repr, DecidableEq

/-- The service's construction-time state: the `enabled` flag, whether a
Redis client was created, and the three process-wide defaults. -/
structure Config where
  enabled : Bool
  hasRedis : Bool
  defaultTtl : Nat := 30000
  defaultRetryCount : Nat := 3
  defaultRetryDelay : Nat := 200
  deriving Repr, DecidableEq

/-- JavaScript `x || d` on an optional number: `undefined` and `0` are falsy
and fall back to the default. -/
def jsOr : Option Nat → Nat → Nat
  | some n, d => if n = 0 then d else n
  | none, d => d

/-- `options?.ttl || this.defaultTtl`. -/
def resolvedTtl (cfg : Config) (opts : Option LockOptions) : Nat :=
  jsOr (opts.bind LockOptions.ttl) cfg.defaultTtl

/-- `options?.retryCount || this.defaultRetryCount`. -/
def resolvedRetryCount (cfg : Config) (opts : Option LockOptions) : Nat :=
  jsOr (opts.bind LockOptions.retryCount) cfg.defaultRetryCount

/-- `options?.retryDelay || this.defaultRetryDelay`. -/
def resolvedRetryDelay (cfg : Config) (opts : Option LockOptions) : Nat :=
  jsOr (opts.bind LockOptions.retryDelay) cfg.defaultRetryDelay

/-- The namespaced storage key: `worker:lock:${key}`. -/
def lockKey (key : String) : String := "worker:lock:" ++ key

/-- The token returned in local mode: `local-${Date.now()}`. -/
def localToken (nowMs : Nat) : String := "local-" ++ Nat.repr nowMs

/-- The distributed token: `${process.pid}-${Date.now()}-${Math.random()}`,
with the rendered random component passed in as a string. -/
def mkToken (pid nowMs : Nat) (rand : String) : String :=
  Nat.repr pid ++ "-" ++ Nat.repr nowMs ++ "-" ++ rand

/-- Everything observable when `acquire` returns: the returned value
(`some token` or the `null` sentinel), the store, the clock (advanced by the
sleeps performed) and how many `SET ... NX` attempts were issued. -/
structure AcqOut where
  result : Option String
  store : Store
  now : Nat
  attempts : Nat
  deriving Repr, DecidableEq

/-- The retry loop of `acquire`, with `remaining` further attempts allowed
after the current one (`remaining = retryCount - attempt`).  Each iteration
awaits one `SET lk token PX ttl NX`; a rejection is caught and the method
returns `null` at once, success returns the token, and a failed `NX` sleeps
`retryDelay` (advancing the clock) before the next attempt, or returns
`null` when no attempts remain. -/
def acquireGo (errAt : Nat → Bool) (lk token : String) (ttl retryDelay : Nat) :
    Nat → Store → Nat → Nat → AcqOut
  | 0, st, now, attempt =>
    match redisCall (errAt attempt) (setNX st now lk token ttl) with
    | Except.error _ => ⟨none, st, now, attempt + 1⟩
    | Except.ok (true, st1) => ⟨some token, st1, now, attempt + 1⟩
    | Except.ok (false, _) => ⟨none, st, now, attempt + 1⟩
  | r + 1, st, now, attempt =>
    match redisCall (errAt attempt) (setNX st now lk token ttl) with
    | Except.error _ => ⟨none, st, now, attempt + 1⟩
    | Except.ok (true, st1) => ⟨some token, st1, now, attempt + 1⟩
    | Except.ok (false, _) =>
      acquireGo errAt lk token ttl retryDelay r st (now + retryDelay)
        (attempt + 1)

/-- `acquire(key, options)`.  Disabled or storeless service: return a local
token with no store traffic.  Otherwise resolve the options, build the
token and run the bounded retry loop. -/
def acquire (cfg : Config) (opts : Option LockOptions) (pid nowMs : Nat)
    (rand : String) (errAt : Nat → Bool) (st : Store) (key : String) :
    AcqOut :=
  if !cfg.enabled || !cfg.hasRedis then
    ⟨some (localToken nowMs), st, nowMs, 0⟩
  else
    acquireGo errAt (lockKey key) (mkToken pid nowMs rand)
      (resolvedTtl cfg opts) (resolvedRetryDelay cfg opts)
      (resolvedRetryCount cfg opts) st nowMs 0

/-- `release(key, token)`.  Disabled: `true` with no store traffic.
Otherwise awaits the atomic check-and-delete script; a rejection is caught
and yields `false`, and the script's reply is compared against `1`. -/
def release (cfg : Config) (redisErr : Bool) (st : Store) (now : Nat)
    (key token : String) : Bool × Store :=
  if !cfg.enabled || !cfg.hasRedis then (true, st)
  else
    match redisCall redisErr (releaseScript st now (lockKey key) token) with
    | Except.error _ => (false, st)
    | Except.ok (r, st1) => (r == 1, st1)

/-- `extend(key, token, ttl)`.  Disabled: `true` with no store traffic.
Otherwise awaits the atomic check-and-pexpire script; a rejection is caught
and yields `false`, and the script's reply is compared against `1`. -/
def extend (cfg : Config) (redisErr : Bool) (st : Store) (now : Nat)
    (key token : String) (ttl : Nat) : Bool × Store :=
  if !cfg.enabled || !cfg.hasRedis then (true, st)
  else
    match redisCall redisErr (extendScript st now (lockKey key) token ttl) with
    | Except.error _ => (false, st)
    | Except.ok (r, st1) => (r == 1, st1)

/-- `withLock(key, fn, options)`.  Acquire; on `null` skip `fn` and return
`null`; on success run `fn` (an effectful unit of work over an arbitrary
effect state `σ`, resolving to a value or rejecting) and, in the `finally`
block `fnDur` milliseconds later, await `release`, discarding its boolean;
then return `fn`'s resolved value or re-raise its error.  The flat result
type `Except Unit (Option β)` mirrors the source's `Promise<T | null>`,
where the unit of work may itself resolve to `null` (`none`). -/
def withLock {σ β : Type} (cfg : Config) (opts : Option LockOptions)
    (pid nowMs : Nat) (rand : String) (errAt : Nat → Bool) (relErr : Bool)
    (fnDur : Nat) (st : Store) (key : String)
    (fn : σ → Except Unit (Option β) × σ) (eff : σ) :
    Except Unit (Option β) × Store × σ :=
  let out := acquire cfg opts pid nowMs rand errAt st key
  match out.result with
  | none => (Except.ok none, out.store, eff)
  | some tok =>
    let fnOut := fn eff
    let rel := release cfg relErr out.store (out.now + fnDur) key tok
    (fnOut.1, rel.2, fnOut.2)

/-- What Redis `EXISTS lockKey` replies at instant `now`: `1` when a live
entry is present, else `0`. -/
def existsCount (st : Store) (now : Nat) (key : String) : Nat :=
  match liveGet st now key with
  | some _ => 1
  | none => 0

/-- `exists(key)`.  Disabled: `false` with no store traffic.  Otherwise the
store round-trip is awaited with no surrounding `try/catch`, so a rejection
propagates to the caller; a reply is compared against `1`. -/
def existsLock (cfg : Config) (redisErr : Bool) (st : Store) (now : Nat)
    (key : String) : Except Unit Bool :=
  if !cfg.enabled || !cfg.hasRedis then Except.ok false
  else
    Except.map (fun n => n == 1)
      (redisCall redisErr (existsCount st now (lockKey key)))

end DistLock

namespace DistLock

theorem storeGet_storeSet_self (st : Store) (key : String) (e : Entry) :
    storeGet (storeSet st key e) key = some e := by
  induction st with
  | nil => simp [storeSet, storeGet]
  | cons p rest ih =>
    obtain ⟨k, e0⟩ := p
    by_cases h : k = key
    · simp [storeSet, storeGet, h]
    · simp [storeSet, storeGet, h, ih]

theorem storeGet_storeDel_self (st : Store) (key : String) :
    storeGet (storeDel st key) key = none := by
  induction st with
  | nil => simp [storeDel, storeGet]
  | cons p rest ih =>
    obtain ⟨k, e0⟩ := p
    by_cases h : k = key
    · simp [storeDel, h, ih]
    · simp [storeDel, storeGet, h, ih]

theorem liveGet_storeSet_self (st : Store) (now : Nat) (key : String)
    (e : Entry) :
    liveGet (storeSet st key e) now key =
      if now < e.expiresAt then some e.token else none := by
  simp [liveGet, storeGet_storeSet_self]

theorem liveGet_storeDel_self (st : Store) (now : Nat) (key : String) :
    liveGet (storeDel st key) now key = none := by
  simp [liveGet, storeGet_storeDel_self]

theorem acquireGo_result_some (errAt : Nat → Bool) (lk token : String)
    (ttl rd : Nat) (rem : Nat) :
    ∀ (st : Store) (now attempt : Nat) (t : String),
      (acquireGo errAt lk token ttl rd rem st now attempt).result = some t →
      t = token ∧
      (acquireGo errAt lk token ttl rd rem st now attempt).store =
        storeSet st lk
          ⟨token,
            (acquireGo errAt lk token ttl rd rem st now attempt).now + ttl⟩ := by
  induction rem with
  | zero =>
    intro st now attempt t h
    cases herr : errAt attempt with
    | true => simp [acquireGo, redisCall, herr] at h
    | false =>
      cases hl : liveGet st now lk with
      | some s => simp [acquireGo, redisCall, herr, setNX, hl] at h
      | none =>
        simp [acquireGo, redisCall, herr, setNX, hl] at h ⊢
        exact h.symm
  | succ r ih =>
    intro st now attempt t h
    cases herr : errAt attempt with
    | true => simp [acquireGo, redisCall, herr] at h
    | false =>
      cases hl : liveGet st now lk with
      | some s =>
        simp only [acquireGo, redisCall, herr, setNX, hl] at h ⊢
        simp at h ⊢
        exact ih st (now + rd) (attempt + 1) t h
      | none =>
        simp [acquireGo, redisCall, herr, setNX, hl] at h ⊢
        exact h.symm

/-- C1: for every key, at most one outstanding token is valid at any instant:
one `SET NX` attempt succeeds exactly when no live entry exists at the
namespaced key; a success installs exactly the new token; after a success
every further set-if-absent before the expiry fails; and `acquire` hands out
a token only when such an attempt succeeded, leaving the store mapping the
namespaced key to that very token. -/
theorem acquire_mutual_exclusion (cfg : Config) (opts : Option LockOptions)
    (pid nowMs : Nat) (rand : String) (errAt : Nat → Bool) (st : Store)
    (key : String) (hE : cfg.enabled = true) (hR : cfg.hasRedis = true)
    (hTtl : 0 < resolvedTtl cfg opts) :
    (∀ now token,
      (setNX st now (lockKey key) token (resolvedTtl cfg opts)).1 = true ↔
        liveGet st now (lockKey key) = none)
    ∧ (∀ now token, liveGet st now (lockKey key) = none →
        liveGet (setNX st now (lockKey key) token (resolvedTtl cfg opts)).2
          now (lockKey key) = some token)
    ∧ (∀ now token token2 ttl2 t, liveGet st now (lockKey key) = none →
        t < now + resolvedTtl cfg opts →
        (setNX (setNX st now (lockKey key) token (resolvedTtl cfg opts)).2
          t (lockKey key) token2 ttl2).1 = false)
    ∧ (∀ t, (acquire cfg opts pid nowMs rand errAt st key).result = some t →
        t = mkToken pid nowMs rand ∧
        liveGet (acquire cfg opts pid nowMs rand errAt st key).store
          (acquire cfg opts pid nowMs rand errAt st key).now (lockKey key) =
          some t) := by
  refine ⟨?_, ?_, ?_, ?_⟩
  · intro now token
    cases hl : liveGet st now (lockKey key) with
    | some s => simp [setNX, hl]
    | none => simp [setNX, hl]
  · intro now token hl
    simp [setNX, hl, liveGet_storeSet_self]
    omega
  · intro now token token2 ttl2 t hl ht
    simp [setNX, hl, liveGet_storeSet_self, ht]
  · intro t h
    simp only [acquire, hE, hR, Bool.not_true, Bool.false_or] at h ⊢
    simp at h ⊢
    obtain ⟨rfl, hst⟩ := acquireGo_result_some errAt (lockKey key)
      (mkToken pid nowMs rand) (resolvedTtl cfg opts)
      (resolvedRetryDelay cfg opts) (resolvedRetryCount cfg opts)
      st nowMs 0 t h
    refine ⟨rfl, ?_⟩
    rw [hst, liveGet_storeSet_self]
    simp
    omega

/-- C1 witness: the mutual-exclusion theorem instantiated at a concrete
configuration, store and call. -/
theorem acquire_mutual_exclusion_witness :
    (⟨true, true, 30000, 3, 200⟩ : Config).enabled = true ∧
    (⟨true, true, 30000, 3, 200⟩ : Config).hasRedis = true ∧
    0 < resolvedTtl ⟨true, true, 30000, 3, 200⟩ none ∧
    ((∀ now token,
      (setNX [] now (lockKey "job") token
        (resolvedTtl ⟨true, true, 30000, 3, 200⟩ none)).1 = true ↔
        liveGet [] now (lockKey "job") = none)
    ∧ (∀ now token, liveGet [] now (lockKey "job") = none →
        liveGet (setNX [] now (lockKey "job") token
          (resolvedTtl ⟨true, true, 30000, 3, 200⟩ none)).2
          now (lockKey "job") = some token)
    ∧ (∀ now token token2 ttl2 t, liveGet [] now (lockKey "job") = none →
        t < now + resolvedTtl ⟨true, true, 30000, 3, 200⟩ none →
        (setNX (setNX [] now (lockKey "job") token
          (resolvedTtl ⟨true, true, 30000, 3, 200⟩ none)).2
          t (lockKey "job") token2 ttl2).1 = false)
    ∧ (∀ t,
        (acquire ⟨true, true, 30000, 3, 200⟩ none 7 5 "0.25"
          (fun _ => false) [] "job").result = some t →
        t = mkToken 7 5 "0.25" ∧
        liveGet (acquire ⟨true, true, 30000, 3, 200⟩ none 7 5 "0.25"
            (fun _ => false) [] "job").store
          (acquire ⟨true, true, 30000, 3, 200⟩ none 7 5 "0.25"
            (fun _ => false) [] "job").now (lockKey "job") = some t)) :=
  ⟨rfl, rfl, by decide,
    acquire_mutual_exclusion ⟨true, true, 30000, 3, 200⟩ none 7 5 "0.25"
      (fun _ => false) [] "job" rfl rfl (by decide)⟩

/-- C2: release and extend are owner-gated: each returns true exactly when
the caller's token is the live stored value at the namespaced key; on success
release deletes the key and extend moves its expiry to `now + ttl`; on
mismatch or absence both return false and leave the store untouched. -/
theorem release_extend_owner_gated (cfg : Config) (st : Store) (now : Nat)
    (key token : String) (ttl : Nat)
    (hE : cfg.enabled = true) (hR : cfg.hasRedis = true) :
    ((release cfg false st now key token).1 = true ↔
      liveGet st now (lockKey key) = some token)
    ∧ (liveGet st now (lockKey key) = some token →
        release cfg false st now key token = (true, storeDel st (lockKey key)))
    ∧ (liveGet st now (lockKey key) ≠ some token →
        release cfg false st now key token = (false, st))
    ∧ ((extend cfg false st now key token ttl).1 = true ↔
        liveGet st now (lockKey key) = some token)
    ∧ (liveGet st now (lockKey key) = some token →
        extend cfg false st now key token ttl =
          (true, storeSet st (lockKey key) ⟨token, now + ttl⟩))
    ∧ (liveGet st now (lockKey key) ≠ some token →
        extend cfg false st now key token ttl = (false, st)) := by
  cases hl : liveGet st now (lockKey key) with
  | some s =>
    by_cases hs : s = token
    · subst hs
      simp [release, extend, redisCall, releaseScript, extendScript, hE, hR, hl]
    · simp [release, extend, redisCall, releaseScript, extendScript, hE, hR,
        hl, hs]
  | none =>
    simp [release, extend, redisCall, releaseScript, extendScript, hE, hR, hl]

/-- C2 witness: owner-gating instantiated on a store holding one live lock. -/
theorem release_extend_owner_gated_witness :
    (⟨true, true, 30000, 3, 200⟩ : Config).enabled = true ∧
    ((release ⟨true, true, 30000, 3, 200⟩ false
        [(lockKey "job", ⟨"tok1", 100⟩)] 50 "job" "tok1").1 = true ↔
      liveGet [(lockKey "job", ⟨"tok1", 100⟩)] 50 (lockKey "job") =
        some "tok1") ∧
    (liveGet [(lockKey "job", ⟨"tok1", 100⟩)] 50 (lockKey "job") =
        some "tok1" →
      release ⟨true, true, 30000, 3, 200⟩ false
          [(lockKey "job", ⟨"tok1", 100⟩)] 50 "job" "tok1" =
        (true, storeDel [(lockKey "job", ⟨"tok1", 100⟩)] (lockKey "job"))) :=
  ⟨rfl,
    (release_extend_owner_gated ⟨true, true, 30000, 3, 200⟩
      [(lockKey "job", ⟨"tok1", 100⟩)] 50 "job" "tok1" 5000 rfl rfl).1,
    (release_extend_owner_gated ⟨true, true, 30000, 3, 200⟩
      [(lockKey "job", ⟨"tok1", 100⟩)] 50 "job" "tok1" 5000 rfl rfl).2.1⟩

end DistLock

namespace DistLock

theorem acquireGo_all_held (lk token : String) (ttl rd : Nat) (rem : Nat) :
    ∀ (st : Store) (now attempt : Nat),
      (∀ t, t ≤ now + rem * rd → (liveGet st t lk).isSome = true) →
      acquireGo (fun _ => false) lk token ttl rd rem st now attempt =
        ⟨none, st, now + rem * rd, attempt + rem + 1⟩ := by
  induction rem with
  | zero =>
    intro st now attempt hHeld
    have h0 : (liveGet st now lk).isSome = true := hHeld now (by omega)
    cases hl : liveGet st now lk with
    | none => rw [hl] at h0; simp at h0
    | some s => simp [acquireGo, redisCall, setNX, hl]
  | succ r ih =>
    intro st now attempt hHeld
    have h0 : (liveGet st now lk).isSome = true := hHeld now (by omega)
    cases hl : liveGet st now lk with
    | none => rw [hl] at h0; simp at h0
    | some s =>
      have hrec := ih st (now + rd) (attempt + 1)
        (fun t ht => hHeld t (by rw [Nat.succ_mul]; omega))
      simp only [acquireGo, redisCall, Bool.false_eq_true, if_false,
        setNX, hl, hrec]
      simp [AcqOut.mk.injEq, Nat.succ_mul]
      omega

theorem acquireGo_err_return (errAt : Nat → Bool) (lk token : String)
    (ttl rd : Nat) (j : Nat) :
    ∀ (rem : Nat) (st : Store) (now attempt : Nat),
      errAt (attempt + j) = true →
      (∀ i, i < j → errAt (attempt + i) = false) →
      (∀ t, t ≤ now + j * rd → (liveGet st t lk).isSome = true) →
      j ≤ rem →
      acquireGo errAt lk token ttl rd rem st now attempt =
        ⟨none, st, now + j * rd, attempt + j + 1⟩ := by
  induction j with
  | zero =>
    intro rem st now attempt hj hbefore hHeld hle
    rw [Nat.add_zero] at hj
    cases rem with
    | zero => simp [acquireGo, redisCall, hj]
    | succ r => simp [acquireGo, redisCall, hj]
  | succ j ih =>
    intro rem st now attempt hj hbefore hHeld hle
    cases rem with
    | zero => omega
    | succ r =>
      have herr0 : errAt attempt = false := by
        have := hbefore 0 (by omega)
        simpa using this
      have h0 : (liveGet st now lk).isSome = true := hHeld now (by omega)
      cases hl : liveGet st now lk with
      | none => rw [hl] at h0; simp at h0
      | some s =>
        have hj1 : errAt (attempt + 1 + j) = true := by
          have h : attempt + 1 + j = attempt + (j + 1) := by omega
          rw [h]; exact hj
        have hb1 : ∀ i, i < j → errAt (attempt + 1 + i) = false := by
          intro i hi
          have h : attempt + 1 + i = attempt + (i + 1) := by omega
          rw [h]; exact hbefore (i + 1) (by omega)
        have hh1 : ∀ t, t ≤ now + rd + j * rd →
            (liveGet st t lk).isSome = true := by
          intro t ht
          exact hHeld t (by rw [Nat.succ_mul]; omega)
        have hrec := ih r st (now + rd) (attempt + 1) hj1 hb1 hh1 (by omega)
        simp only [acquireGo, redisCall, herr0, Bool.false_eq_true, if_false,
          setNX, hl, hrec]
        simp [AcqOut.mk.injEq, Nat.succ_mul]
        omega

theorem acquire_free_first_attempt (cfg : Config) (opts : Option LockOptions)
    (pid nowMs : Nat) (rand : String) (st : Store) (key : String)
    (hE : cfg.enabled = true) (hR : cfg.hasRedis = true)
    (hFree : liveGet st nowMs (lockKey key) = none) :
    acquire cfg opts pid nowMs rand (fun _ => false) st key =
      ⟨some (mkToken pid nowMs rand),
        storeSet st (lockKey key)
          ⟨mkToken pid nowMs rand, nowMs + resolvedTtl cfg opts⟩,
        nowMs, 1⟩ := by
  simp only [acquire, hE, hR, Bool.not_true, Bool.or_self, Bool.false_eq_true,
    if_false]
  cases resolvedRetryCount cfg opts with
  | zero => simp [acquireGo, redisCall, setNX, hFree]
  | succ r => simp [acquireGo, redisCall, setNX, hFree]

/-- C4: an `acquire` whose every `SET NX` attempt finds the key held performs
exactly `1 + retryCount` attempts, sleeps `retryDelay` between consecutive
attempts but not after the last (the clock advances by exactly
`retryCount * retryDelay`), leaves the store untouched and returns the null
sentinel rather than raising. -/
theorem acquire_bounded_retry (cfg : Config) (opts : Option LockOptions)
    (pid nowMs : Nat) (rand : String) (st : Store) (key : String)
    (hE : cfg.enabled = true) (hR : cfg.hasRedis = true)
    (hHeld : ∀ t,
      t ≤ nowMs + resolvedRetryCount cfg opts * resolvedRetryDelay cfg opts →
      (liveGet st t (lockKey key)).isSome = true) :
    acquire cfg opts pid nowMs rand (fun _ => false) st key =
      ⟨none, st,
        nowMs + resolvedRetryCount cfg opts * resolvedRetryDelay cfg opts,
        resolvedRetryCount cfg opts + 1⟩ := by
  simp only [acquire, hE, hR, Bool.not_true, Bool.or_self, Bool.false_eq_true,
    if_false]
  have := acquireGo_all_held (lockKey key) (mkToken pid nowMs rand)
    (resolvedTtl cfg opts) (resolvedRetryDelay cfg opts)
    (resolvedRetryCount cfg opts) st nowMs 0 hHeld
  simpa using this

/-- C4 witness: with defaults ttl 10, 2 retries and delay 5 against a store
holding the key until instant 100, acquire issues 3 attempts, sleeps twice
and returns null. -/
theorem acquire_bounded_retry_witness :
    (⟨true, true, 10, 2, 5⟩ : Config).enabled = true ∧
    (∀ t, t ≤ 0 + resolvedRetryCount ⟨true, true, 10, 2, 5⟩ none *
        resolvedRetryDelay ⟨true, true, 10, 2, 5⟩ none →
      (liveGet [(lockKey "job", ⟨"held", 100⟩)] t (lockKey "job")).isSome =
        true) ∧
    acquire ⟨true, true, 10, 2, 5⟩ none 1 0 "0.5" (fun _ => false)
        [(lockKey "job", ⟨"held", 100⟩)] "job" =
      ⟨none, [(lockKey "job", ⟨"held", 100⟩)],
        0 + resolvedRetryCount ⟨true, true, 10, 2, 5⟩ none *
          resolvedRetryDelay ⟨true, true, 10, 2, 5⟩ none,
        resolvedRetryCount ⟨true, true, 10, 2, 5⟩ none + 1⟩ :=
  ⟨rfl, by decide,
    acquire_bounded_retry ⟨true, true, 10, 2, 5⟩ none 1 0 "0.5"
      [(lockKey "job", ⟨"held", 100⟩)] "job" rfl rfl (by decide)⟩

/-- C5 counterexample: the store rejects only the very first attempt and the
key is free; the claim says the attempt is retried per policy (three retries
remain, and a retry would succeed, as the second run shows), but `acquire`
returns the null sentinel after that single attempt. -/
theorem acquire_error_no_retry_cex :
    acquire ⟨true, true, 30000, 3, 200⟩ none 1 0 "0.5" (fun i => i == 0)
        [] "job" =
      ⟨none, [], 0, 1⟩ ∧
    acquire ⟨true, true, 30000, 3, 200⟩ none 1 0 "0.5" (fun _ => false)
        [] "job" =
      ⟨some (mkToken 1 0 "0.5"),
        [(lockKey "job", ⟨mkToken 1 0 "0.5", 30000⟩)], 0, 1⟩ :=
  ⟨rfl, rfl⟩

/-- C5 amended: when the set-if-absent call errors on attempt `j` (earlier
attempts found the key held), `acquire` catches the error and returns the
null sentinel immediately — `j + 1` attempts in total, no further retries,
no exception. -/
theorem acquire_error_returns_immediately (cfg : Config)
    (opts : Option LockOptions) (pid nowMs : Nat) (rand : String)
    (errAt : Nat → Bool) (st : Store) (key : String) (j : Nat)
    (hE : cfg.enabled = true) (hR : cfg.hasRedis = true)
    (hj : errAt j = true)
    (hbefore : ∀ i, i < j → errAt i = false)
    (hHeld : ∀ t, t ≤ nowMs + j * resolvedRetryDelay cfg opts →
      (liveGet st t (lockKey key)).isSome = true)
    (hle : j ≤ resolvedRetryCount cfg opts) :
    acquire cfg opts pid nowMs rand errAt st key =
      ⟨none, st, nowMs + j * resolvedRetryDelay cfg opts, j + 1⟩ := by
  simp only [acquire, hE, hR, Bool.not_true, Bool.or_self, Bool.false_eq_true,
    if_false]
  have hj0 : errAt (0 + j) = true := by rw [Nat.zero_add]; exact hj
  have hb0 : ∀ i, i < j → errAt (0 + i) = false := by
    intro i hi; rw [Nat.zero_add]; exact hbefore i hi
  have := acquireGo_err_return errAt (lockKey key) (mkToken pid nowMs rand)
    (resolvedTtl cfg opts) (resolvedRetryDelay cfg opts) j
    (resolvedRetryCount cfg opts) st nowMs 0 hj0 hb0 hHeld hle
  simpa using this

/-- C5 amended witness: the store is held at the first attempt and rejects at
the second; acquire returns null after exactly two attempts. -/
theorem acquire_error_returns_immediately_witness :
    (fun i => i == 1) 1 = true ∧
    (∀ i, i < 1 → (fun i => i == 1) i = false) ∧
    (∀ t, t ≤ 0 + 1 * resolvedRetryDelay ⟨true, true, 10, 2, 5⟩ none →
      (liveGet [(lockKey "job", ⟨"held", 100⟩)] t (lockKey "job")).isSome =
        true) ∧
    1 ≤ resolvedRetryCount ⟨true, true, 10, 2, 5⟩ none ∧
    acquire ⟨true, true, 10, 2, 5⟩ none 1 0 "0.5" (fun i => i == 1)
        [(lockKey "job", ⟨"held", 100⟩)] "job" =
      ⟨none, [(lockKey "job", ⟨"held", 100⟩)],
        0 + 1 * resolvedRetryDelay ⟨true, true, 10, 2, 5⟩ none, 1 + 1⟩ :=
  ⟨rfl, by decide, by decide, by decide,
    acquire_error_returns_immediately ⟨true, true, 10, 2, 5⟩ none 1 0 "0.5"
      (fun i => i == 1) [(lockKey "job", ⟨"held", 100⟩)] "job" 1 rfl rfl rfl
      (by decide) (by decide) (by decide)⟩

end DistLock

namespace DistLock

/-- C3: after a successful acquire, `withLock` runs the unit of work, always
runs release afterwards (on the normal path and on the throwing path alike,
deleting the lock entry when the store is reachable), and hands the unit of
work's own outcome — resolved value or original error — back to the caller
unchanged, even when release fails or returns false. -/
theorem withLock_cleanup {σ β : Type} (cfg : Config)
    (opts : Option LockOptions) (pid nowMs : Nat) (rand : String)
    (relErr : Bool) (fnDur : Nat) (st : Store) (key : String)
    (fn : σ → Except Unit (Option β) × σ) (eff : σ)
    (hE : cfg.enabled = true) (hR : cfg.hasRedis = true)
    (hFree : liveGet st nowMs (lockKey key) = none)
    (hDur : fnDur < resolvedTtl cfg opts) :
    (withLock cfg opts pid nowMs rand (fun _ => false) relErr fnDur st key
        fn eff).1 = (fn eff).1 ∧
    (withLock cfg opts pid nowMs rand (fun _ => false) relErr fnDur st key
        fn eff).2.2 = (fn eff).2 ∧
    (relErr = false →
      (withLock cfg opts pid nowMs rand (fun _ => false) relErr fnDur st key
          fn eff).2.1 =
        storeDel (storeSet st (lockKey key)
          ⟨mkToken pid nowMs rand, nowMs + resolvedTtl cfg opts⟩)
          (lockKey key) ∧
      ∀ u, liveGet (withLock cfg opts pid nowMs rand (fun _ => false) relErr
          fnDur st key fn eff).2.1 u (lockKey key) = none) := by
  have hacq := acquire_free_first_attempt cfg opts pid nowMs rand st key hE hR
    hFree
  have hlt : nowMs + fnDur < nowMs + resolvedTtl cfg opts := by omega
  have hrel : release cfg false
      (storeSet st (lockKey key)
        ⟨mkToken pid nowMs rand, nowMs + resolvedTtl cfg opts⟩)
      (nowMs + fnDur) key (mkToken pid nowMs rand) =
      (true,
        storeDel (storeSet st (lockKey key)
          ⟨mkToken pid nowMs rand, nowMs + resolvedTtl cfg opts⟩)
          (lockKey key)) := by
    simp [release, redisCall, releaseScript, hE, hR, liveGet_storeSet_self,
      hlt]
  refine ⟨?_, ?_, ?_⟩
  · simp [withLock, hacq]
  · simp [withLock, hacq]
  · intro hrelErr
    subst hrelErr
    refine ⟨?_, ?_⟩
    · simp [withLock, hacq, hrel]
    · intro u
      simp [withLock, hacq, hrel, liveGet_storeDel_self]

/-- C3 witness: the cleanup theorem instantiated with a concrete unit of
work over a counter effect state. -/
theorem withLock_cleanup_witness :
    (⟨true, true, 10, 2, 5⟩ : Config).enabled = true ∧
    liveGet [] 0 (lockKey "job") = none ∧
    3 < resolvedTtl ⟨true, true, 10, 2, 5⟩ none ∧
    ((@withLock Nat Nat ⟨true, true, 10, 2, 5⟩ none 1 0 "0.5"
        (fun _ => false) false 3 [] "job"
        (fun n => (Except.ok (some 7), n + 1)) 0).1 =
      ((fun n => ((Except.ok (some 7) : Except Unit (Option Nat)), n + 1)) 0).1 ∧
    (@withLock Nat Nat ⟨true, true, 10, 2, 5⟩ none 1 0 "0.5"
        (fun _ => false) false 3 [] "job"
        (fun n => (Except.ok (some 7), n + 1)) 0).2.2 =
      ((fun n => ((Except.ok (some 7) : Except Unit (Option Nat)), n + 1)) 0).2 ∧
    (false = false →
      (@withLock Nat Nat ⟨true, true, 10, 2, 5⟩ none 1 0 "0.5"
          (fun _ => false) false 3 [] "job"
          (fun n => (Except.ok (some 7), n + 1)) 0).2.1 =
        storeDel (storeSet [] (lockKey "job")
          ⟨mkToken 1 0 "0.5", 0 + resolvedTtl ⟨true, true, 10, 2, 5⟩ none⟩)
          (lockKey "job") ∧
      ∀ u, liveGet (@withLock Nat Nat ⟨true, true, 10, 2, 5⟩ none 1 0 "0.5"
          (fun _ => false) false 3 [] "job"
          (fun n => (Except.ok (some 7), n + 1)) 0).2.1 u (lockKey "job") =
        none)) :=
  ⟨rfl, rfl, by decide,
    withLock_cleanup ⟨true, true, 10, 2, 5⟩ none 1 0 "0.5" false 3 [] "job"
      (fun n => (Except.ok (some 7), n + 1)) 0 rfl rfl rfl (by decide)⟩

/-- C6 counterexample: a run whose acquisition fails (key held by another
token throughout the retry window) and a run that acquires and executes a
unit of work resolving to null return the very same value `null`, so the
caller cannot tell the skipped run from the executed one; only the effect
counter betrays that the unit of work ran exactly once in the second run and
not at all in the first. -/
theorem withLock_skip_indistinguishable_cex :
    (@withLock Nat Nat ⟨true, true, 30000, 3, 200⟩ none 1 0 "0.5"
        (fun _ => false) false 0 [(lockKey "job", ⟨"held", 1000000⟩)] "job"
        (fun n => (Except.ok none, n + 1)) 0).1 =
      (@withLock Nat Nat ⟨true, true, 30000, 3, 200⟩ none 1 0 "0.5"
        (fun _ => false) false 0 [] "job"
        (fun n => (Except.ok none, n + 1)) 0).1 ∧
    (@withLock Nat Nat ⟨true, true, 30000, 3, 200⟩ none 1 0 "0.5"
        (fun _ => false) false 0 [(lockKey "job", ⟨"held", 1000000⟩)] "job"
        (fun n => (Except.ok none, n + 1)) 0).2.2 = 0 ∧
    (@withLock Nat Nat ⟨true, true, 30000, 3, 200⟩ none 1 0 "0.5"
        (fun _ => false) false 0 [] "job"
        (fun n => (Except.ok none, n + 1)) 0).2.2 = 1 :=
  ⟨rfl, rfl, rfl⟩

/-- C6 amended: when acquisition fails the unit of work is not executed (the
effect state is returned untouched) and `withLock` returns null; this return
value is distinguishable from an executed run only when the unit of work
itself never resolves to null, since an executed null-resolving run returns
the same value. -/
theorem withLock_skip {σ β : Type} (cfg : Config) (opts : Option LockOptions)
    (pid nowMs : Nat) (rand : String) (errAt : Nat → Bool) (relErr : Bool)
    (fnDur : Nat) (st : Store) (key : String)
    (fn : σ → Except Unit (Option β) × σ) (eff : σ)
    (hFail : (acquire cfg opts pid nowMs rand errAt st key).result = none) :
    withLock cfg opts pid nowMs rand errAt relErr fnDur st key fn eff =
      (Except.ok none,
        (acquire cfg opts pid nowMs rand errAt st key).store, eff) := by
  simp [withLock, hFail]

/-- C6 amended witness: skipping on a store that holds the key. -/
theorem withLock_skip_witness :
    (acquire ⟨true, true, 10, 2, 5⟩ none 1 0 "0.5" (fun _ => false)
        [(lockKey "job", ⟨"held", 1000⟩)] "job").result = none ∧
    @withLock Nat Nat ⟨true, true, 10, 2, 5⟩ none 1 0 "0.5" (fun _ => false)
        false 0 [(lockKey "job", ⟨"held", 1000⟩)] "job"
        (fun n => (Except.ok (some 7), n + 1)) 0 =
      (Except.ok none,
        (acquire ⟨true, true, 10, 2, 5⟩ none 1 0 "0.5" (fun _ => false)
          [(lockKey "job", ⟨"held", 1000⟩)] "job").store, 0) :=
  ⟨rfl,
    withLock_skip ⟨true, true, 10, 2, 5⟩ none 1 0 "0.5" (fun _ => false)
      false 0 [(lockKey "job", ⟨"held", 1000⟩)] "job"
      (fun n => (Except.ok (some 7), n + 1)) 0 rfl⟩

end DistLock

namespace DistLock

/-- C7 counterexample: an explicitly supplied retryCount of 0 is not used in
place of the process default — `||` treats 0 as unset — so the acquire that
the claim says performs exactly one attempt with no sleep in fact resolves
retryCount to the default 3, performs 4 set-if-absent attempts and sleeps
600 ms. -/
theorem retryCount_zero_uses_default_cex :
    resolvedRetryCount ⟨true, true, 30000, 3, 200⟩
        (some ⟨none, some 0, none⟩) = 3 ∧
    acquire ⟨true, true, 30000, 3, 200⟩ (some ⟨none, some 0, none⟩) 1 0 "0.5"
        (fun _ => false) [(lockKey "job", ⟨"held", 1000000⟩)] "job" =
      ⟨none, [(lockKey "job", ⟨"held", 1000000⟩)], 600, 4⟩ :=
  ⟨rfl, rfl⟩

/-- C7 amended: a per-call option overrides the process default only when the
supplied value is nonzero; a supplied 0 — like an omitted field or absent
options object — falls back to the default (so retryCount 0 behaves as the
default retry count).  With a nonzero supplied retryCount `rc` and retryDelay
`rd`, an acquire that always finds the key held performs exactly `rc + 1`
attempts. -/
theorem options_override_nonzero (cfg : Config) (tv rc rd : Nat)
    (o1 o2 o3 : Option Nat)
    (ht : tv ≠ 0) (hrc : rc ≠ 0) (hrd : rd ≠ 0) :
    resolvedTtl cfg (some ⟨some tv, o2, o3⟩) = tv ∧
    resolvedRetryCount cfg (some ⟨o1, some rc, o3⟩) = rc ∧
    resolvedRetryDelay cfg (some ⟨o1, o2, some rd⟩) = rd ∧
    resolvedTtl cfg (some ⟨some 0, o2, o3⟩) = cfg.defaultTtl ∧
    resolvedRetryCount cfg (some ⟨o1, some 0, o3⟩) = cfg.defaultRetryCount ∧
    resolvedRetryDelay cfg (some ⟨o1, o2, some 0⟩) = cfg.defaultRetryDelay ∧
    resolvedTtl cfg none = cfg.defaultTtl ∧
    resolvedRetryCount cfg none = cfg.defaultRetryCount ∧
    resolvedRetryDelay cfg none = cfg.defaultRetryDelay ∧
    (∀ (st : Store) (key : String) (pid : Nat) (rand : String),
      cfg.enabled = true → cfg.hasRedis = true →
      (∀ tm, tm ≤ rc * rd → (liveGet st tm (lockKey key)).isSome = true) →
      (acquire cfg (some ⟨some tv, some rc, some rd⟩) pid 0 rand
        (fun _ => false) st key).attempts = rc + 1) := by
  refine ⟨by simp [resolvedTtl, jsOr, ht], by simp [resolvedRetryCount, jsOr, hrc],
    by simp [resolvedRetryDelay, jsOr, hrd], by simp [resolvedTtl, jsOr],
    by simp [resolvedRetryCount, jsOr], by simp [resolvedRetryDelay, jsOr],
    by simp [resolvedTtl, jsOr], by simp [resolvedRetryCount, jsOr],
    by simp [resolvedRetryDelay, jsOr], ?_⟩
  intro st key pid rand hE hR hHeld
  have h1 : resolvedRetryCount cfg (some ⟨some tv, some rc, some rd⟩) = rc :=
    by simp [resolvedRetryCount, jsOr, hrc]
  have h2 : resolvedRetryDelay cfg (some ⟨some tv, some rc, some rd⟩) = rd :=
    by simp [resolvedRetryDelay, jsOr, hrd]
  have hgo := acquireGo_all_held (lockKey key) (mkToken pid 0 rand)
    (resolvedTtl cfg (some ⟨some tv, some rc, some rd⟩)) rd rc st 0 0
    (by intro t htm; exact hHeld t (by omega))
  simp only [acquire, hE, hR, Bool.not_true, Bool.or_self, Bool.false_eq_true,
    if_false, h1, h2, hgo]
  omega

/-- C7 amended witness: supplied nonzero options 10/2/5 are honoured and the
always-held acquire performs 3 attempts. -/
theorem options_override_nonzero_witness :
    (10 : Nat) ≠ 0 ∧ (2 : Nat) ≠ 0 ∧ (5 : Nat) ≠ 0 ∧
    (resolvedTtl ⟨true, true, 30000, 3, 200⟩
        (some ⟨some 10, none, none⟩) = 10 ∧
    resolvedRetryCount ⟨true, true, 30000, 3, 200⟩
        (some ⟨none, some 2, none⟩) = 2 ∧
    resolvedRetryDelay ⟨true, true, 30000, 3, 200⟩
        (some ⟨none, none, some 5⟩) = 5 ∧
    resolvedTtl ⟨true, true, 30000, 3, 200⟩
        (some ⟨some 0, none, none⟩) = 30000 ∧
    resolvedRetryCount ⟨true, true, 30000, 3, 200⟩
        (some ⟨none, some 0, none⟩) = 3 ∧
    resolvedRetryDelay ⟨true, true, 30000, 3, 200⟩
        (some ⟨none, none, some 0⟩) = 200 ∧
    resolvedTtl ⟨true, true, 30000, 3, 200⟩ none = 30000 ∧
    resolvedRetryCount ⟨true, true, 30000, 3, 200⟩ none = 3 ∧
    resolvedRetryDelay ⟨true, true, 30000, 3, 200⟩ none = 200 ∧
    (∀ (st : Store) (key : String) (pid : Nat) (rand : String),
      (⟨true, true, 30000, 3, 200⟩ : Config).enabled = true →
      (⟨true, true, 30000, 3, 200⟩ : Config).hasRedis = true →
      (∀ tm, tm ≤ 2 * 5 → (liveGet st tm (lockKey key)).isSome = true) →
      (acquire ⟨true, true, 30000, 3, 200⟩ (some ⟨some 10, some 2, some 5⟩)
        pid 0 rand (fun _ => false) st key).attempts = 2 + 1)) :=
  ⟨by decide, by decide, by decide,
    options_override_nonzero ⟨true, true, 30000, 3, 200⟩ 10 2 5 none none
      none (by decide) (by decide) (by decide)⟩

/-- C8: store faults are captured inside each operation: an erroring first
set-if-absent makes acquire return the null sentinel (store and clock
untouched, one attempt), and an erroring script call makes release and
extend return false with the store untouched — none of them surfaces the
error. -/
theorem store_errors_captured (cfg : Config) (opts : Option LockOptions)
    (pid nowMs : Nat) (rand : String) (st : Store) (key token : String)
    (ttl : Nat) (errAt : Nat → Bool)
    (hE : cfg.enabled = true) (hR : cfg.hasRedis = true)
    (hErr0 : errAt 0 = true) :
    acquire cfg opts pid nowMs rand errAt st key = ⟨none, st, nowMs, 1⟩ ∧
    release cfg true st nowMs key token = (false, st) ∧
    extend cfg true st nowMs key token ttl = (false, st) := by
  refine ⟨?_, ?_, ?_⟩
  · simp only [acquire, hE, hR, Bool.not_true, Bool.or_self,
      Bool.false_eq_true, if_false]
    cases resolvedRetryCount cfg opts with
    | zero => simp [acquireGo, redisCall, hErr0]
    | succ r => simp [acquireGo, redisCall, hErr0]
  · simp [release, redisCall, hE, hR]
  · simp [extend, redisCall, hE, hR]

/-- C8 witness: capture of store faults at a concrete configuration. -/
theorem store_errors_captured_witness :
    (fun (_ : Nat) => true) 0 = true ∧
    (acquire ⟨true, true, 30000, 3, 200⟩ none 1 0 "0.5" (fun _ => true)
        [] "job" = ⟨none, [], 0, 1⟩ ∧
    release ⟨true, true, 30000, 3, 200⟩ true [] 0 "job" "tok" = (false, []) ∧
    extend ⟨true, true, 30000, 3, 200⟩ true [] 0 "job" "tok" 5 = (false, [])) :=
  ⟨rfl,
    store_errors_captured ⟨true, true, 30000, 3, 200⟩ none 1 0 "0.5" [] "job"
      "tok" 5 (fun _ => true) rfl rfl rfl⟩

/-- C9 counterexample: two disabled-mode acquires in the same millisecond
both succeed and hand out the identical token `local-5`, refuting that every
two token-returning acquires return distinct tokens. -/
theorem local_token_collision_cex :
    (acquire ⟨false, false, 30000, 3, 200⟩ none 1 5 "0.1" (fun _ => false)
        [] "job1").result = some "local-5" ∧
    (acquire ⟨false, false, 30000, 3, 200⟩ none 2 5 "0.2" (fun _ => false)
        [] "job2").result = some "local-5" :=
  ⟨rfl, rfl⟩

/-- C9 amended: the token is freshly built from process id, timestamp and
random draw on each enabled-mode acquire, so two successful acquires whose
random components differ receive distinct tokens; acquires whose generation
inputs coincide — in particular disabled-mode acquires within one
millisecond — receive identical tokens. -/
theorem token_distinct_by_inputs (cfg : Config) (opts : Option LockOptions)
    (pid nowMs : Nat) (r1 r2 : String) (st1 st2 : Store) (k1 k2 : String)
    (hE : cfg.enabled = true) (hR : cfg.hasRedis = true) (hne : r1 ≠ r2)
    (hFree1 : liveGet st1 nowMs (lockKey k1) = none)
    (hFree2 : liveGet st2 nowMs (lockKey k2) = none) :
    (acquire cfg opts pid nowMs r1 (fun _ => false) st1 k1).result =
      some (mkToken pid nowMs r1) ∧
    (acquire cfg opts pid nowMs r2 (fun _ => false) st2 k2).result =
      some (mkToken pid nowMs r2) ∧
    mkToken pid nowMs r1 ≠ mkToken pid nowMs r2 := by
  refine ⟨?_, ?_, ?_⟩
  · rw [acquire_free_first_attempt cfg opts pid nowMs r1 st1 k1 hE hR hFree1]
  · rw [acquire_free_first_attempt cfg opts pid nowMs r2 st2 k2 hE hR hFree2]
  · intro hEq
    apply hne
    have hdata := congrArg String.data hEq
    simp only [mkToken, String.data_append] at hdata
    exact String.ext (List.append_cancel_left hdata)

/-- C9 amended witness: distinct random draws give distinct tokens. -/
theorem token_distinct_by_inputs_witness :
    ("0.1" : String) ≠ "0.2" ∧
    ((acquire ⟨true, true, 30000, 3, 200⟩ none 1 5 "0.1" (fun _ => false)
        [] "a").result = some (mkToken 1 5 "0.1") ∧
    (acquire ⟨true, true, 30000, 3, 200⟩ none 1 5 "0.2" (fun _ => false)
        [] "b").result = some (mkToken 1 5 "0.2") ∧
    mkToken 1 5 "0.1" ≠ mkToken 1 5 "0.2") :=
  ⟨by decide,
    token_distinct_by_inputs ⟨true, true, 30000, 3, 200⟩ none 1 5 "0.1" "0.2"
      [] [] "a" "b" rfl rfl (by decide) rfl rfl⟩

/-- C10: `exists` is the one operation without error capture: enabled with a
rejecting store call it propagates the error to the caller, while release and
extend under the same fault return false; with a reachable store it reports
whether a live entry is present; disabled or without a client it returns
false regardless of the store. -/
theorem exists_error_propagation (cfg : Config) (st : Store) (now : Nat)
    (key : String) (hE : cfg.enabled = true) (hR : cfg.hasRedis = true) :
    existsLock cfg true st now key = Except.error () ∧
    existsLock cfg false st now key =
      Except.ok (existsCount st now (lockKey key) == 1) ∧
    (∀ cfg2 err st2 now2 key2,
      cfg2.enabled = false ∨ cfg2.hasRedis = false →
      existsLock cfg2 err st2 now2 key2 = Except.ok false) ∧
    (release cfg true st now key "tok").1 = false ∧
    (extend cfg true st now key "tok" 1000).1 = false := by
  refine ⟨?_, ?_, ?_, ?_, ?_⟩
  · simp [existsLock, redisCall, Except.map, hE, hR]
  · simp [existsLock, redisCall, Except.map, hE, hR]
  · intro cfg2 err st2 now2 key2 h
    rcases h with h | h <;> simp [existsLock, h]
  · simp [release, redisCall, hE, hR]
  · simp [extend, redisCall, hE, hR]

/-- C10 witness: error propagation of exists at a concrete configuration. -/
theorem exists_error_propagation_witness :
    (⟨true, true, 30000, 3, 200⟩ : Config).enabled = true ∧
    (existsLock ⟨true, true, 30000, 3, 200⟩ true [] 0 "job" =
        Except.error () ∧
    existsLock ⟨true, true, 30000, 3, 200⟩ false [] 0 "job" =
      Except.ok (existsCount [] 0 (lockKey "job") == 1) ∧
    (∀ cfg2 err st2 now2 key2,
      cfg2.enabled = false ∨ cfg2.hasRedis = false →
      existsLock cfg2 err st2 now2 key2 = Except.ok false) ∧
    (release ⟨true, true, 30000, 3, 200⟩ true [] 0 "job" "tok").1 = false ∧
    (extend ⟨true, true, 30000, 3, 200⟩ true [] 0 "job" "tok" 1000).1 =
      false) :=
  ⟨rfl, exists_error_propagation ⟨true, true, 30000, 3, 200⟩ [] 0 "job" rfl
    rfl⟩

end DistLock
